import Mathlib

/-!
Verification of the go-volley header-straddling transport.

The Go sources define two variants of the byte-withholding connection
wrapper plus a coordinating transport:

* the counter-tracking transport (Transport, StraddleConn with an
  isCounted flag, Fire by compare-and-swap, Wait over atomic counters,
  trackDial), embedded here as TState, ConnState, straddleWrite,
  releaseConn, closeConn, fire, waitCheck, trackDial;
* the simple registration-based wrapper, embedded as SConn and
  simpleWrite.

Bytes are modelled as Nat (their numeric value is only moved around, never
computed with).  A write call to the underlying net.Conn is modelled by
the list of bytes handed to the call ("wire"); whether the underlying
connection accepts the call is decided by an oracle
u : List Nat -> Option Nat, where none means success and some e means the
call fails with error code e.  The fired flag of the owning transport is
read twice by StraddleConn.Write (a lock-free fast check and a locked
double check); a concurrent Fire may run between the two reads, so the
embedding takes both observations as parameters (fired1 for the fast
check, fired2 for the double check); a sequential execution has
fired1 = fired2.
-/

namespace Volley

/-- State of a counter-tracking StraddleConn: the withheld byte, whether a
byte is currently withheld, and whether this connection has been counted
into the owner's heldCount. -/
structure ConnState where
  held : Nat
  hasHeld : Bool
  isCounted : Bool
deriving Repr, DecidableEq

/-- Result of one StraddleConn.Write call: updated connection state, the
bytes handed to underlying Write calls (in order), the returned count,
the returned error, and whether this call newly incremented the owner's
heldCount. -/
structure WriteOut where
  sc : ConnState
  wire : List Nat
  n : Nat
  err : Option Nat
  newlyCounted : Bool
deriving Repr, DecidableEq

/-- Embedding of StraddleConn.Write from the counter-tracking source.
fired1 is the lock-free fast check of the owner's fired flag; fired2 is
the double check made after acquiring the per-connection lock. -/
def straddleWrite (fired1 fired2 : Bool) (u : List Nat → Option Nat)
    (sc : ConnState) (b : List Nat) : WriteOut :=
  if b.isEmpty then ⟨sc, [], 0, none, false⟩
  else if fired1 then
    -- Hot path: bypass lock and buffering entirely.
    match u b with
    | none => ⟨sc, b, b.length, none, false⟩
    | some e => ⟨sc, b, 0, some e, false⟩
  else if fired2 then
    -- Double check under the lock: flush a pending held byte, then pass through.
    let flushWire := if sc.hasHeld then [sc.held] else []
    let sc2 : ConnState := { sc with hasHeld := false }
    match u b with
    | none => ⟨sc2, flushWire ++ b, b.length, none, false⟩
    | some e => ⟨sc2, flushWire ++ b, 0, some e, false⟩
  else
    -- Buffer logic: combine any held byte with b, withhold the last byte.
    let payload := (if sc.hasHeld then [sc.held] else []) ++ b
    if payload.isEmpty then ⟨{ sc with hasHeld := false }, [], b.length, none, false⟩
    else
      let sc2 : ConnState :=
        { sc with held := payload.getLastD 0, hasHeld := true, isCounted := true }
      let newly := !sc.isCounted
      let toSend := payload.dropLast
      if toSend.isEmpty then ⟨sc2, [], b.length, none, newly⟩
      else
        match u toSend with
        | none => ⟨sc2, toSend, b.length, none, newly⟩
        | some e => ⟨sc2, toSend, 0, some e, newly⟩

/-- Embedding of StraddleConn.release: flush the withheld byte if present
(the result of the underlying write is ignored by the source). -/
def releaseConn (sc : ConnState) : ConnState × List Nat :=
  if sc.hasHeld then ({ sc with hasHeld := false }, [sc.held]) else (sc, [])

/-- Result of StraddleConn.Close on the per-connection state: the state
after closing, the bytes flushed to the underlying connection before it
is closed, and whether the owner's heldCount was decremented. -/
structure CloseOut where
  sc : ConnState
  wire : List Nat
  decremented : Bool
deriving Repr, DecidableEq

/-- Embedding of StraddleConn.Close (per-connection part): decrement the
owner's heldCount only if this connection is counted and the round has not
fired, clear the counted flag, and flush any withheld byte before the
underlying connection is closed. -/
def closeConn (fired : Bool) (sc : ConnState) : CloseOut :=
  let dec := sc.isCounted && !fired
  let wire := if sc.hasHeld then [sc.held] else []
  ⟨{ sc with isCounted := false, hasHeld := false }, wire, dec⟩

/-- State of the simple registration-based StraddleConn. -/
structure SConn where
  held : Nat
  hasHeld : Bool
deriving Repr, DecidableEq

/-- Result of one simple StraddleConn.Write call. -/
structure SWriteOut where
  sc : SConn
  wire : List Nat
  n : Nat
  err : Option Nat
deriving Repr, DecidableEq

/-- Embedding of StraddleConn.Write from the simple registration-based
source: always buffer, no fired flag and no counting. -/
def simpleWrite (u : List Nat → Option Nat) (sc : SConn) (b : List Nat) : SWriteOut :=
  if b.isEmpty then ⟨sc, [], 0, none⟩
  else
    let payload := (if sc.hasHeld then [sc.held] else []) ++ b
    if payload.isEmpty then ⟨{ sc with hasHeld := false }, [], b.length, none⟩
    else
      let sc2 : SConn := { held := payload.getLastD 0, hasHeld := true }
      let toSend := payload.dropLast
      if toSend.isEmpty then ⟨sc2, [], b.length, none⟩
      else
        match u toSend with
        | none => ⟨sc2, toSend, b.length, none⟩
        | some e => ⟨sc2, toSend, 0, some e⟩

/-- Transport-level state of the counter-tracking source: the atomic
counters, the fired flag, the number of close operations performed on the
current broadcast channel, and the number of tryNotify attempts. -/
structure TState where
  dialStartCount : Int
  dialInflight : Int
  aliveCount : Int
  heldCount : Int
  fired : Bool
  fireCloseCount : Nat
  notifyCount : Nat
deriving Repr, DecidableEq

/-- Embedding of Transport.Fire: a compare-and-swap of fired from 0 to 1;
only the winning call closes the broadcast channel. -/
def fire (t : TState) : TState :=
  if t.fired then t
  else { t with fired := true, fireCloseCount := t.fireCloseCount + 1 }

/-- Embedding of the check closure inside Transport.Wait. -/
def waitCheck (t : TState) (want : Int) : Bool :=
  if t.dialStartCount < want then false
  else if 0 < t.dialInflight then false
  else if t.aliveCount = 0 then true
  else t.heldCount == t.aliveCount

/-- Embedding of the return decision of Transport.Wait on a settled state:
nil is returned immediately for non-positive want, otherwise exactly when
the check closure holds. -/
def waitReturnsNil (t : TState) (want : Int) : Bool :=
  if want ≤ 0 then true else waitCheck t want

/-- Spec-side definition, for comparison only: transcribes the return
condition stated by the spec and by the doc comment of Transport.Wait
(all initiated dials finished, and held ≥ want or held = alive). -/
def waitDocCheck (t : TState) (want : Int) : Bool :=
  (want ≤ t.dialStartCount) && (t.dialInflight == 0) &&
    ((want ≤ t.heldCount) || (t.heldCount == t.aliveCount))

/-- Embedding of the trackDial closure of NewTransport together with
Transport.wrapConn.  The connection attempt is a function of the
transport state, so the state it observes is explicit; it returns true on
success. -/
def trackDial (t : TState) (attempt : TState → Bool) : TState × Option ConnState :=
  let t1 : TState := { t with dialStartCount := t.dialStartCount + 1 }
  let t2 : TState := { t1 with dialInflight := t1.dialInflight + 1 }
  let ok := attempt t2
  let t3 : TState := { t2 with dialInflight := t2.dialInflight - 1 }
  if ok then
    ({ t3 with aliveCount := t3.aliveCount + 1, notifyCount := t3.notifyCount + 1 },
      some { held := 0, hasHeld := false, isCounted := false })
  else
    ({ t3 with notifyCount := t3.notifyCount + 1 }, none)

/-- A wrapper as seen by the transport: its per-connection state and
whether its Close has already run. -/
structure WConn where
  cs : ConnState
  closed : Bool
deriving Repr, DecidableEq

/-- Global state for interleaving-free executions: the transport counters
and every wrapper created so far. -/
structure GState where
  dialStartCount : Int
  dialInflight : Int
  aliveCount : Int
  heldCount : Int
  fired : Bool
  conns : List WConn
deriving Repr, DecidableEq

/-- Fresh transport state, as produced by NewTransport. -/
def initG : GState := ⟨0, 0, 0, 0, false, []⟩

/-- Effect of a settled failing dial on the transport counters. -/
def applyDialFail (s : GState) : GState :=
  { s with dialStartCount := s.dialStartCount + 1 }

/-- Effect of a settled successful dial: the counters move as in trackDial
and wrapConn, and a fresh wrapper is appended. -/
def applyDialSuccess (s : GState) : GState :=
  { s with dialStartCount := s.dialStartCount + 1,
           aliveCount := s.aliveCount + 1,
           conns := s.conns ++ [⟨⟨0, false, false⟩, false⟩] }

/-- Effect of one Write call on wrapper i (sequential execution: both
reads of the fired flag see the same value). -/
def applyWrite (s : GState) (i : Nat) (u : List Nat → Option Nat) (b : List Nat) : GState :=
  match s.conns.get? i with
  | none => s
  | some c =>
    let o := straddleWrite s.fired s.fired u c.cs b
    { s with conns := s.conns.set i { c with cs := o.sc },
             heldCount := if o.newlyCounted then s.heldCount + 1 else s.heldCount }

/-- Effect of Fire on the global state. -/
def applyFire (s : GState) : GState := { s with fired := true }

/-- Effect of Close on wrapper i. -/
def applyClose (s : GState) (i : Nat) : GState :=
  match s.conns.get? i with
  | none => s
  | some c =>
    let o := closeConn s.fired c.cs
    { s with conns := s.conns.set i ⟨o.sc, true⟩,
             heldCount := if o.decremented then s.heldCount - 1 else s.heldCount,
             aliveCount := s.aliveCount - 1 }

/-- Effect of the background release of wrapper i (runs only once the
broadcast channel snapshot has been closed, i.e. after Fire). -/
def applyRelease (s : GState) (i : Nat) : GState :=
  match s.conns.get? i with
  | none => s
  | some c => { s with conns := s.conns.set i { c with cs := (releaseConn c.cs).1 } }

/-- One interleaving-free operation of the transport.  Write and Close
apply only to wrappers whose Close has not yet run, matching the net.Conn
usage contract of the surrounding HTTP machinery. -/
inductive Step : GState → GState → Prop where
  | dialFail (s : GState) : Step s (applyDialFail s)
  | dialSuccess (s : GState) : Step s (applyDialSuccess s)
  | write (s : GState) (i : Nat) (u : List Nat → Option Nat) (b : List Nat) (c : WConn)
      (hc : s.conns.get? i = some c) (hopen : c.closed = false) :
      Step s (applyWrite s i u b)
  | fireStep (s : GState) : Step s (applyFire s)
  | closeStep (s : GState) (i : Nat) (c : WConn)
      (hc : s.conns.get? i = some c) (hopen : c.closed = false) :
      Step s (applyClose s i)
  | releaseStep (s : GState) (i : Nat) (hf : s.fired = true) :
      Step s (applyRelease s i)

/-- States reachable from a fresh transport by interleaving-free
operation sequences. -/
inductive Reachable : GState → Prop where
  | init : Reachable initG
  | step (s s2 : GState) (h : Reachable s) (hs : Step s s2) : Reachable s2

/-- Contribution of one wrapper to heldCount: 1 if it is open and
counted, 0 otherwise. -/
def contrib (c : WConn) : Int := if !c.closed && c.cs.isCounted then 1 else 0

/-- Contribution of one wrapper to aliveCount: 1 if open, 0 otherwise. -/
def aliveContrib (c : WConn) : Int := if c.closed then 0 else 1

/-- Sum of held contributions over all wrappers. -/
def heldTotal (l : List WConn) : Int := (l.map contrib).sum

/-- Sum of alive contributions over all wrappers. -/
def openTotal (l : List WConn) : Int := (l.map aliveContrib).sum

/-- The counters agree with the per-wrapper bookkeeping. -/
def counterInv (s : GState) : Prop :=
  s.heldCount = heldTotal s.conns ∧ s.aliveCount = openTotal s.conns

theorem sum_map_set (f : WConn → Int) (l : List WConn) (i : Nat) (c c2 : WConn)
    (h : l.get? i = some c) :
    ((l.set i c2).map f).sum = (l.map f).sum - f c + f c2 := by
  induction l generalizing i with
  | nil => simp at h
  | cons a l ih =>
    cases i with
    | zero =>
      simp only [List.get?_cons_zero, Option.some.injEq] at h
      subst h
      simp only [List.set_cons_zero, List.map_cons, List.sum_cons]
      ring
    | succ n =>
      simp only [List.get?_cons_succ] at h
      simp only [List.set_cons_succ, List.map_cons, List.sum_cons, ih n h]
      ring

theorem contrib_le (c : WConn) : contrib c ≤ aliveContrib c := by
  unfold contrib aliveContrib
  cases h : c.closed <;> cases h2 : c.cs.isCounted <;> simp

theorem heldTotal_le_openTotal (l : List WConn) : heldTotal l ≤ openTotal l :=
  List.sum_le_sum fun c _ => contrib_le c

theorem applyWrite_fired (s : GState) (i : Nat) (u : List Nat → Option Nat) (b : List Nat) :
    (applyWrite s i u b).fired = s.fired := by
  unfold applyWrite
  cases s.conns.get? i <;> rfl

theorem applyClose_fired (s : GState) (i : Nat) : (applyClose s i).fired = s.fired := by
  unfold applyClose
  cases s.conns.get? i <;> rfl

theorem applyRelease_fired (s : GState) (i : Nat) : (applyRelease s i).fired = s.fired := by
  unfold applyRelease
  cases s.conns.get? i <;> rfl

theorem straddleWrite_empty (f1 f2 : Bool) (u : List Nat → Option Nat) (sc : ConnState)
    (b : List Nat) (hb : b.isEmpty = true) :
    straddleWrite f1 f2 u sc b = ⟨sc, [], 0, none, false⟩ := by
  unfold straddleWrite
  simp [hb]

theorem straddleWrite_shape (u : List Nat → Option Nat) (sc : ConnState) (b : List Nat)
    (hb : b.isEmpty = false) :
    (straddleWrite false false u sc b).sc.isCounted = true
  ∧ (straddleWrite false false u sc b).newlyCounted = !sc.isCounted := by
  cases b with
  | nil => simp at hb
  | cons x xs =>
    unfold straddleWrite
    cases hh : sc.hasHeld <;>
      simp only [hh, List.isEmpty_cons, Bool.false_eq_true, if_false, if_true,
        List.nil_append, List.cons_append, List.singleton_append, ite_true, ite_false] <;>
      refine ⟨?_, ?_⟩ <;>
      · split
        · rfl
        · split <;> rfl

theorem straddleWrite_contrib (u : List Nat → Option Nat) (sc : ConnState) (b : List Nat) :
    (if (straddleWrite false false u sc b).sc.isCounted then (1 : Int) else 0)
      = (if sc.isCounted then (1 : Int) else 0)
        + (if (straddleWrite false false u sc b).newlyCounted then (1 : Int) else 0) := by
  cases hb : b.isEmpty with
  | true => rw [straddleWrite_empty false false u sc b hb]; simp
  | false =>
    obtain ⟨h1, h2⟩ := straddleWrite_shape u sc b hb
    rw [h1, h2]
    cases hc : sc.isCounted <;> simp

theorem stepInv (s s2 : GState) (hs : Step s s2)
    (ih : s.fired = false → counterInv s) :
    s2.fired = false → counterInv s2 := by
  intro hf2
  cases hs with
  | dialFail =>
    obtain ⟨hH, hA⟩ := ih hf2
    exact ⟨hH, hA⟩
  | dialSuccess =>
    obtain ⟨hH, hA⟩ := ih hf2
    refine ⟨?_, ?_⟩
    · simp [applyDialSuccess, heldTotal, contrib, hH]
    · simp [applyDialSuccess, openTotal, aliveContrib, hA]
  | write i u b c hc hopen =>
    rw [applyWrite_fired] at hf2
    obtain ⟨hH, hA⟩ := ih hf2
    simp only [heldTotal] at hH
    simp only [openTotal] at hA
    unfold counterInv applyWrite
    simp only [hc, hf2, heldTotal, openTotal]
    have hcc := straddleWrite_contrib u c.cs b
    refine ⟨?_, ?_⟩
    · rw [sum_map_set contrib s.conns i c _ hc, ← hH]
      simp only [contrib, hopen, Bool.not_false, Bool.true_and]
      rw [hcc]
      cases hnw : (straddleWrite false false u c.cs b).newlyCounted <;> simp <;> ring
    · rw [sum_map_set aliveContrib s.conns i c _ hc, ← hA]
      simp only [aliveContrib, hopen]
      ring
  | fireStep =>
    simp [applyFire] at hf2
  | closeStep i c hc hopen =>
    rw [applyClose_fired] at hf2
    obtain ⟨hH, hA⟩ := ih hf2
    simp only [heldTotal] at hH
    simp only [openTotal] at hA
    unfold counterInv applyClose
    simp only [hc, heldTotal, openTotal, closeConn, hf2, Bool.not_false, Bool.and_true]
    refine ⟨?_, ?_⟩
    · rw [sum_map_set contrib s.conns i c _ hc, ← hH]
      simp only [contrib, hopen, Bool.not_false, Bool.true_and, Bool.not_true,
        Bool.false_and, Bool.and_false]
      cases hco : c.cs.isCounted <;> simp
    · rw [sum_map_set aliveContrib s.conns i c _ hc, ← hA]
      simp only [aliveContrib, hopen, Bool.false_eq_true, if_false, if_true,
        ite_true, ite_false]
      omega
  | releaseStep i hf =>
    rw [applyRelease_fired, hf] at hf2
    exact absurd hf2 (by simp)

theorem reachable_inv (s : GState) (h : Reachable s) : s.fired = false → counterInv s := by
  induction h with
  | init => intro _; exact ⟨rfl, rfl⟩
  | step s s2 _ hs ih => exact stepInv s s2 hs ih

/-- A settled transport state with two successful dials, one of which is
already withholding: dialStartCount = 2, dialInflight = 0,
aliveCount = 2, heldCount = 1. -/
def tC1 : TState :=
  { dialStartCount := 2, dialInflight := 0, aliveCount := 2, heldCount := 1,
    fired := false, fireCloseCount := 0, notifyCount := 0 }

/-- C1 (code bug): the check closure of Transport.Wait omits the
heldConnections ≥ want disjunct stated by its own doc comment and by the
spec.  In the settled state tC1 with want = 1 the documented predicate
holds (held = 1 ≥ 1 = want, all dials settled) yet check() is false, so
Wait keeps blocking; the non-positive-want fast path does return nil. -/
theorem wait_misses_doc_disjunct :
    waitDocCheck tC1 1 = true
  ∧ waitCheck tC1 1 = false
  ∧ waitReturnsNil tC1 1 = false
  ∧ (∀ t : TState, waitReturnsNil t 0 = true) := by
  refine ⟨by decide, by decide, by decide, ?_⟩
  intro t
  simp [waitReturnsNil]

/-- C2: for every connection and under either order of the background
release and Close (the two are serialized by the per-connection lock),
the withheld byte is handed to the underlying connection exactly once
when one is held and never otherwise; Close flushes before closing the
underlying connection only while hasHeld is still set, and after either
order nothing remains held. -/
theorem heldByte_flushed_once (f : Bool) (sc : ConnState) :
    ((releaseConn sc).2 ++ (closeConn f (releaseConn sc).1).wire
        = if sc.hasHeld then [sc.held] else [])
  ∧ ((closeConn f sc).wire ++ (releaseConn (closeConn f sc).sc).2
        = if sc.hasHeld then [sc.held] else [])
  ∧ ((closeConn f sc).wire = if sc.hasHeld then [sc.held] else [])
  ∧ ((closeConn f (releaseConn sc).1).sc.hasHeld = false)
  ∧ ((releaseConn (closeConn f sc).sc).1.hasHeld = false) := by
  cases hh : sc.hasHeld <;> simp [releaseConn, closeConn, hh]

/-- C4: Fire is a compare-and-swap on the fired flag: the flag is true
afterwards, the broadcast channel is closed exactly once and never on an
already-fired transport, and repeated Fire calls change nothing. -/
theorem fire_idempotent (t : TState) :
    (fire t).fired = true
  ∧ ((fire t).fireCloseCount
        = if t.fired then t.fireCloseCount else t.fireCloseCount + 1)
  ∧ fire (fire t) = fire t
  ∧ fire { t with fired := true } = { t with fired := true } := by
  cases hf : t.fired <;> simp [fire, hf]

/-- C7: Close decrements heldCount by exactly 1 when the wrapper is
counted and the round is unfired, leaves heldCount unchanged after Fire,
clears the counted flag, and a second close of the same wrapper never
decrements again. -/
theorem close_decrement (s : GState) (i : Nat) (c : WConn) (g : Bool)
    (hc : s.conns.get? i = some c) :
    ((applyClose s i).heldCount
        = if c.cs.isCounted && !s.fired then s.heldCount - 1 else s.heldCount)
  ∧ ((applyClose { s with fired := true } i).heldCount = s.heldCount)
  ∧ ((closeConn s.fired c.cs).sc.isCounted = false)
  ∧ ((closeConn g (closeConn s.fired c.cs).sc).decremented = false) := by
  refine ⟨?_, ?_, rfl, ?_⟩
  · unfold applyClose
    simp only [hc, closeConn]
  · unfold applyClose
    simp only [hc, closeConn]
    simp
  · simp [closeConn]

/-- Witness for close_decrement at the concrete state with one freshly
dialed wrapper. -/
theorem close_decrement_witness :
    ((applyClose (applyDialSuccess initG) 0).heldCount
        = if (⟨⟨0, false, false⟩, false⟩ : WConn).cs.isCounted
              && !(applyDialSuccess initG).fired
          then (applyDialSuccess initG).heldCount - 1
          else (applyDialSuccess initG).heldCount)
  ∧ ((applyClose { applyDialSuccess initG with fired := true } 0).heldCount
        = (applyDialSuccess initG).heldCount)
  ∧ ((closeConn (applyDialSuccess initG).fired
        (⟨⟨0, false, false⟩, false⟩ : WConn).cs).sc.isCounted = false)
  ∧ ((closeConn false
        (closeConn (applyDialSuccess initG).fired
          (⟨⟨0, false, false⟩, false⟩ : WConn).cs).sc).decremented = false) :=
  close_decrement (applyDialSuccess initG) 0 ⟨⟨0, false, false⟩, false⟩ false rfl

/-- The all-zero transport state produced by NewTransport. -/
def tZero : TState := ⟨0, 0, 0, 0, false, 0, 0⟩

/-- C8: trackDial increments dialStartCount and then dialInflight before
invoking the attempt (the attempt observes both increments), decrements
dialInflight exactly once regardless of outcome, and notifies waiters;
on failure it creates no wrapper and leaves aliveCount unchanged, on
success it increments aliveCount and returns a fresh wrapper. -/
theorem trackDial_counters (t : TState) (attempt : TState → Bool) :
    ((trackDial t attempt).1.dialStartCount = t.dialStartCount + 1)
  ∧ ((trackDial t attempt).1.dialInflight = t.dialInflight)
  ∧ ((trackDial t attempt).1.notifyCount = t.notifyCount + 1)
  ∧ (attempt { t with dialStartCount := t.dialStartCount + 1,
                      dialInflight := t.dialInflight + 1 } = false →
        (trackDial t attempt).2 = none
      ∧ (trackDial t attempt).1.aliveCount = t.aliveCount)
  ∧ (attempt { t with dialStartCount := t.dialStartCount + 1,
                      dialInflight := t.dialInflight + 1 } = true →
        (trackDial t attempt).2 = some ⟨0, false, false⟩
      ∧ (trackDial t attempt).1.aliveCount = t.aliveCount + 1) := by
  simp only [trackDial]
  split <;> rename_i hok
  · refine ⟨rfl, by simp, rfl, fun ha => ?_, fun _ => ⟨rfl, by simp⟩⟩
    exact absurd (hok.symm ▸ ha) (by simp)
  · refine ⟨rfl, by simp, rfl, fun _ => ⟨rfl, by simp⟩, fun ha => ?_⟩
    exact absurd ha hok

/-- Witness for trackDial_counters: from the fresh transport state, a
failing attempt yields no wrapper and a succeeding attempt increments
aliveCount. -/
theorem trackDial_counters_witness :
    (trackDial tZero (fun _ => false)).2 = none
  ∧ (trackDial tZero (fun _ => true)).1.aliveCount = tZero.aliveCount + 1 :=
  ⟨((trackDial_counters tZero (fun _ => false)).2.2.2.1 rfl).1,
   ((trackDial_counters tZero (fun _ => true)).2.2.2.2 rfl).2⟩

/-- C3: a Write of nonempty bytes b on an unfired wrapper forms the
combined payload (pending withheld byte, if any, then b), hands all but
the last byte of the payload to the underlying connection, withholds the
payload's last byte, and reports success for the full caller length. -/
theorem straddleWrite_buffering (u : List Nat → Option Nat) (sc : ConnState) (b : List Nat)
    (hb : b ≠ [])
    (hu : u (((if sc.hasHeld then [sc.held] else []) ++ b).dropLast) = none) :
    straddleWrite false false u sc b =
      { sc := { held := ((if sc.hasHeld then [sc.held] else []) ++ b).getLastD 0,
                hasHeld := true, isCounted := true },
        wire := ((if sc.hasHeld then [sc.held] else []) ++ b).dropLast,
        n := b.length, err := none, newlyCounted := !sc.isCounted } := by
  cases b with
  | nil => exact absurd rfl hb
  | cons x xs =>
    unfold straddleWrite
    cases hh : sc.hasHeld <;>
      simp only [hh, List.isEmpty_cons, Bool.false_eq_true, if_false, if_true,
        List.nil_append, List.cons_append, List.singleton_append, ite_true,
        ite_false] at hu ⊢ <;>
      split <;>
      first
        | (rename_i ht
           rw [List.isEmpty_iff] at ht
           rw [ht])
        | rw [hu]

/-- Witness for straddleWrite_buffering: writing the 18 request bytes of
GET / HTTP/1.1 (with CRLF CRLF) to a fresh connection hands the first 17
bytes to the underlying connection, withholds the trailing newline byte
10, and reports success 18. -/
theorem straddleWrite_buffering_witness :
    straddleWrite false false (fun _ => none) ⟨0, false, false⟩
        [71, 69, 84, 32, 47, 32, 72, 84, 84, 80, 47, 49, 46, 49, 13, 10, 13, 10] =
      { sc := { held := 10, hasHeld := true, isCounted := true },
        wire := [71, 69, 84, 32, 47, 32, 72, 84, 84, 80, 47, 49, 46, 49, 13, 10, 13],
        n := 18, err := none, newlyCounted := true } :=
  (straddleWrite_buffering (fun _ => none) ⟨0, false, false⟩
      [71, 69, 84, 32, 47, 32, 72, 84, 84, 80, 47, 49, 46, 49, 13, 10, 13, 10]
      (by decide) rfl).trans (by decide)

/-- C5 counterexample: with the transport already fired and the byte 10
still withheld, the lock-free fast path of Write hands only [1, 2, 3] to
the underlying connection and leaves the byte 10 held, so a fired Write
does not first flush the pending withheld byte as the claim states. -/
theorem fired_write_fast_path_cex :
    ¬ ((straddleWrite true true (fun _ => none) ⟨10, true, true⟩ [1, 2, 3]).wire
          = [10, 1, 2, 3]
       ∧ (straddleWrite true true (fun _ => none) ⟨10, true, true⟩ [1, 2, 3]).sc.hasHeld
          = false) := by
  decide

/-- C5 (amended): once fired, Write forwards the caller's bytes verbatim
and unmodified to the underlying connection; a pending withheld byte is
flushed first only on the locked double-check path (fired observed
between the fast check and the lock), while the lock-free fast path
forwards without flushing and leaves the pending byte to the background
release task or to Close. -/
theorem straddleWrite_fired (u : List Nat → Option Nat) (sc : ConnState) (b : List Nat)
    (f2 : Bool) (hb : b ≠ []) (hu : u b = none) :
    ((straddleWrite true f2 u sc b).wire = b)
  ∧ ((straddleWrite true f2 u sc b).n = b.length)
  ∧ ((straddleWrite true f2 u sc b).err = none)
  ∧ ((straddleWrite true f2 u sc b).sc = sc)
  ∧ ((straddleWrite false true u sc b).wire
        = (if sc.hasHeld then [sc.held] else []) ++ b)
  ∧ ((straddleWrite false true u sc b).sc.hasHeld = false)
  ∧ ((straddleWrite false true u sc b).n = b.length)
  ∧ ((straddleWrite false true u sc b).err = none) := by
  cases b with
  | nil => exact absurd rfl hb
  | cons x xs =>
    unfold straddleWrite
    simp [hu]

/-- Witness for straddleWrite_fired: fired fast-path and double-check
Writes of [1, 2, 3] on a wrapper holding byte 9. -/
theorem straddleWrite_fired_witness :
    ((straddleWrite true true (fun _ => none) ⟨9, true, false⟩ [1, 2, 3]).wire = [1, 2, 3])
  ∧ ((straddleWrite true true (fun _ => none) ⟨9, true, false⟩ [1, 2, 3]).n = 3)
  ∧ ((straddleWrite true true (fun _ => none) ⟨9, true, false⟩ [1, 2, 3]).err = none)
  ∧ ((straddleWrite true true (fun _ => none) ⟨9, true, false⟩ [1, 2, 3]).sc
        = ⟨9, true, false⟩)
  ∧ ((straddleWrite false true (fun _ => none) ⟨9, true, false⟩ [1, 2, 3]).wire
        = [9, 1, 2, 3])
  ∧ ((straddleWrite false true (fun _ => none) ⟨9, true, false⟩ [1, 2, 3]).sc.hasHeld
        = false)
  ∧ ((straddleWrite false true (fun _ => none) ⟨9, true, false⟩ [1, 2, 3]).n = 3)
  ∧ ((straddleWrite false true (fun _ => none) ⟨9, true, false⟩ [1, 2, 3]).err = none) :=
  straddleWrite_fired (fun _ => none) ⟨9, true, false⟩ [1, 2, 3] true (by decide) rfl

/-- C10: if the underlying write of the all-but-last bytes fails, Write
returns count 0 with the error (no partial count); the wrapper still
withholds the final byte of the combined payload (the last byte of b,
not the previously withheld byte, which went into the failed send and is
not restored), stays counted, and the heldCount increment of a first
hold is not rolled back. -/
theorem straddleWrite_sendFailure (u : List Nat → Option Nat) (sc : ConnState) (b : List Nat)
    (e : Nat) (hb : b ≠ [])
    (hts : (((if sc.hasHeld then [sc.held] else []) ++ b).dropLast) ≠ [])
    (hu : u (((if sc.hasHeld then [sc.held] else []) ++ b).dropLast) = some e) :
    ((straddleWrite false false u sc b).n = 0)
  ∧ ((straddleWrite false false u sc b).err = some e)
  ∧ ((straddleWrite false false u sc b).wire
        = ((if sc.hasHeld then [sc.held] else []) ++ b).dropLast)
  ∧ ((straddleWrite false false u sc b).sc.hasHeld = true)
  ∧ ((straddleWrite false false u sc b).sc.held = b.getLastD 0)
  ∧ ((straddleWrite false false u sc b).sc.isCounted = true)
  ∧ ((straddleWrite false false u sc b).newlyCounted = !sc.isCounted) := by
  cases b with
  | nil => exact absurd rfl hb
  | cons x xs =>
    unfold straddleWrite
    cases hh : sc.hasHeld <;>
      simp only [hh, List.isEmpty_cons, Bool.false_eq_true, if_false, if_true,
        List.nil_append, List.cons_append, List.singleton_append, ite_true,
        ite_false] at hu hts ⊢ <;>
      split <;>
      first
        | (rename_i ht
           rw [List.isEmpty_iff] at ht
           exact absurd ht hts)
        | (rw [hu]
           exact ⟨rfl, rfl, rfl, rfl, rfl, rfl, rfl⟩)

/-- Witness for straddleWrite_sendFailure: a wrapper holding byte 7
writes [1, 2]; the underlying send of [7, 1] fails with error 5. -/
theorem straddleWrite_sendFailure_witness :
    ((straddleWrite false false (fun _ => some 5) ⟨7, true, false⟩ [1, 2]).n = 0)
  ∧ ((straddleWrite false false (fun _ => some 5) ⟨7, true, false⟩ [1, 2]).err = some 5)
  ∧ ((straddleWrite false false (fun _ => some 5) ⟨7, true, false⟩ [1, 2]).wire = [7, 1])
  ∧ ((straddleWrite false false (fun _ => some 5) ⟨7, true, false⟩ [1, 2]).sc.hasHeld = true)
  ∧ ((straddleWrite false false (fun _ => some 5) ⟨7, true, false⟩ [1, 2]).sc.held = 2)
  ∧ ((straddleWrite false false (fun _ => some 5) ⟨7, true, false⟩ [1, 2]).sc.isCounted = true)
  ∧ ((straddleWrite false false (fun _ => some 5) ⟨7, true, false⟩ [1, 2]).newlyCounted = true) :=
  straddleWrite_sendFailure (fun _ => some 5) ⟨7, true, false⟩ [1, 2] 5
    (by decide) (by decide) rfl

/-- C6: in every reachable state of an interleaving-free operation
sequence that has not fired, heldCount never exceeds aliveCount,
heldCount is the sum of the per-wrapper contributions, and each wrapper
contributes 0 or 1 (never more) to it. -/
theorem held_le_alive (s : GState) (h : Reachable s) (hf : s.fired = false) :
    s.heldCount ≤ s.aliveCount
  ∧ s.heldCount = heldTotal s.conns
  ∧ (∀ c ∈ s.conns, contrib c = 0 ∨ contrib c = 1) := by
  obtain ⟨hH, hA⟩ := reachable_inv s h hf
  refine ⟨?_, hH, ?_⟩
  · rw [hH, hA]
    exact heldTotal_le_openTotal s.conns
  · intro c _
    unfold contrib
    cases (!c.closed && c.cs.isCounted) <;> simp

/-- A small reachable state: one successful dial followed by one Write
of [1, 2] on the new wrapper. -/
def gWit : GState := applyWrite (applyDialSuccess initG) 0 (fun _ => none) [1, 2]

/-- Witness for held_le_alive at the concrete reachable state gWit. -/
theorem held_le_alive_witness :
    gWit.heldCount ≤ gWit.aliveCount
  ∧ gWit.heldCount = heldTotal gWit.conns
  ∧ (∀ c ∈ gWit.conns, contrib c = 0 ∨ contrib c = 1) :=
  held_le_alive gWit
    (Reachable.step _ _ (Reachable.step _ _ Reachable.init (Step.dialSuccess initG))
      (Step.write (applyDialSuccess initG) 0 (fun _ => none) [1, 2]
        ⟨⟨0, false, false⟩, false⟩ rfl rfl))
    rfl

/-- Projection of the counter-tracking wrapper state onto the simple
wrapper state: the withheld byte and its flag. -/
def projConn (sc : ConnState) : SConn := ⟨sc.held, sc.hasHeld⟩

theorem simpleWrite_proj (u : List Nat → Option Nat) (sc : ConnState) (b : List Nat) :
    simpleWrite u (projConn sc) b =
      { sc := projConn (straddleWrite false false u sc b).sc,
        wire := (straddleWrite false false u sc b).wire,
        n := (straddleWrite false false u sc b).n,
        err := (straddleWrite false false u sc b).err } := by
  cases b with
  | nil => rfl
  | cons x xs =>
    unfold simpleWrite straddleWrite projConn
    cases hh : sc.hasHeld <;>
      simp only [hh, List.isEmpty_cons, Bool.false_eq_true, if_false, if_true,
        List.nil_append, List.cons_append, List.singleton_append, ite_true,
        ite_false] <;>
      split <;>
      first
        | rfl
        | (split <;> rfl)

/-- Repeated Writes on the counter-tracking wrapper, collecting the
bytes handed to the underlying connection and the per-call results. -/
def runStraddle (u : List Nat → Option Nat) :
    ConnState → List (List Nat) → ConnState × List Nat × List (Nat × Option Nat)
  | sc, [] => (sc, [], [])
  | sc, b :: bs =>
    let o := straddleWrite false false u sc b
    let r := runStraddle u o.sc bs
    (r.1, o.wire ++ r.2.1, (o.n, o.err) :: r.2.2)

/-- Repeated Writes on the simple wrapper. -/
def runSimple (u : List Nat → Option Nat) :
    SConn → List (List Nat) → SConn × List Nat × List (Nat × Option Nat)
  | sc, [] => (sc, [], [])
  | sc, b :: bs =>
    let o := simpleWrite u sc b
    let r := runSimple u o.sc bs
    (r.1, o.wire ++ r.2.1, (o.n, o.err) :: r.2.2)

theorem runSimple_proj (u : List Nat → Option Nat) (sc : ConnState) (bs : List (List Nat)) :
    runSimple u (projConn sc) bs =
      (projConn (runStraddle u sc bs).1, (runStraddle u sc bs).2) := by
  induction bs generalizing sc with
  | nil => rfl
  | cons b bs ih =>
    simp only [runStraddle, runSimple, simpleWrite_proj u sc b, ih]

/-- C9: with no Fire and no Close, the simple wrapper and the
counter-tracking wrapper are observationally equivalent on every
sequence of Writes from matching starting states: they hand the same
byte sequence to the underlying connection, return the same
(count, error) results, and end with the same withheld byte and flag. -/
theorem straddle_refines_simple (u : List Nat → Option Nat) (sc : ConnState)
    (bs : List (List Nat)) :
    ((runSimple u (projConn sc) bs).2.1 = (runStraddle u sc bs).2.1)
  ∧ ((runSimple u (projConn sc) bs).2.2 = (runStraddle u sc bs).2.2)
  ∧ ((runSimple u (projConn sc) bs).1.held = (runStraddle u sc bs).1.held)
  ∧ ((runSimple u (projConn sc) bs).1.hasHeld = (runStraddle u sc bs).1.hasHeld) := by
  rw [runSimple_proj u sc bs]
  exact ⟨rfl, rfl, rfl, rfl⟩

end Volley
